import Mathlib

/-!
Verification of the agrolog_poc address-resolution and coordinate-verification
pipeline.  The Python sources (src/utils/helpers.py, src/services/database_client.py,
src/services/task_processor.py, src/ui/task_input.py) are shallowly embedded:

* Python strings are modelled as `List Char` (ASCII-faithful case folding);
* BigQuery tables are lists of rows inside a `DB` record, the in-memory batch
  buffers are lists inside a `Client` record;
* float coordinates are modelled as exact rationals `ℚ` (the code only compares
  them with an epsilon of 1e-7, which is exact in `ℚ`);
* the fallibility of a bulk load job is an explicit `writeOk : Bool` environment
  flag; a raised Python exception is an `Except` error value that carries the
  client state at raise time.
-/

namespace Agrolog

/-! ## Address normalisation (src/utils/helpers.py, clean_address) -/

/-- The whitespace characters recognised by Python str.split with no
arguments, restricted to the ASCII range the application uses. -/
def isPySpace (c : Char) : Bool :=
  c == ' ' || c == '\t' || c == '\n' || c == '\x0b' || c == '\x0c' || c == '\r'

/-- Python str.replace of every newline by a space, done characterwise. -/
def replaceNl (l : List Char) : List Char :=
  l.map (fun c => if c == '\n' then ' ' else c)

/-- Python str.split with no arguments: maximal runs of non-whitespace
characters, with empty runs dropped. -/
def pySplit : List Char → List (List Char)
  | [] => []
  | c :: cs =>
    if isPySpace c then pySplit cs
    else
      ((c :: cs).takeWhile (fun x => !isPySpace x)) ::
        pySplit ((c :: cs).dropWhile (fun x => !isPySpace x))
termination_by l => l.length
decreasing_by
  all_goals simp only [List.length_cons]
  · exact Nat.lt_succ_of_le (Nat.le_refl _)
  · rw [List.dropWhile_cons_of_pos (by simp_all)]
    exact Nat.lt_succ_of_le ((List.dropWhile_sublist _).length_le)

/-- Python " ".join(tokens). -/
def joinSpace (ts : List (List Char)) : List Char :=
  List.intercalate [' '] ts

/-- src/utils/helpers.py clean_address: early return of the empty string on a
falsy input, else replace newlines by spaces, split on whitespace, rejoin with
single spaces. -/
def clean_address (l : List Char) : List Char :=
  if l = [] then [] else joinSpace (pySplit (replaceNl l))

/-- Python str.upper, characterwise on the ASCII range the application uses. -/
def upperChar (c : Char) : Char :=
  if 'a' ≤ c ∧ c ≤ 'z' then Char.ofNat (c.toNat - 32) else c

/-- Python str.upper on a whole string. -/
def upperStr (l : List Char) : List Char := l.map upperChar

/-! ## SHA-256 (hashlib.sha256, as used by _prepare_address_data)

A bit-faithful implementation over `Nat`, every word reduced mod 2^32. -/

/-- Reduce to a 32-bit word. -/
def w32 (n : Nat) : Nat := n % 4294967296

/-- Right rotation of a 32-bit word. -/
def rotr32 (x n : Nat) : Nat := w32 ((x >>> n) ||| (x <<< (32 - n)))

def smallSigma0 (x : Nat) : Nat := rotr32 x 7 ^^^ rotr32 x 18 ^^^ (x >>> 3)

def smallSigma1 (x : Nat) : Nat := rotr32 x 17 ^^^ rotr32 x 19 ^^^ (x >>> 10)

def bigSigma0 (x : Nat) : Nat := rotr32 x 2 ^^^ rotr32 x 13 ^^^ rotr32 x 22

def bigSigma1 (x : Nat) : Nat := rotr32 x 6 ^^^ rotr32 x 11 ^^^ rotr32 x 25

/-- The 64 SHA-256 round constants, written in decimal. -/
def shaK : List Nat :=
  [1116352408, 1899447441, 3049323471, 3921009573, 961987163,
   1508970993, 2453635748, 2870763221, 3624381080, 310598401,
   607225278, 1426881987, 1925078388, 2162078206, 2614888103,
   3248222580, 3835390401, 4022224774, 264347078, 604807628,
   770255983, 1249150122, 1555081692, 1996064986, 2554220882,
   2821834349, 2952996808, 3210313671, 3336571891, 3584528711,
   113926993, 338241895, 666307205, 773529912, 1294757372,
   1396182291, 1695183700, 1986661051, 2177026350, 2456956037,
   2730485921, 2820302411, 3259730800, 3345764771, 3516065817,
   3600352804, 4094571909, 275423344, 430227734, 506948616,
   659060556, 883997877, 958139571, 1322822218, 1537002063,
   1747873779, 1955562222, 2024104815, 2227730452, 2361852424,
   2428436474, 2756734187, 3204031479, 3329325298]

/-- The SHA-256 initial hash values, written in decimal. -/
def shaH0 : List Nat :=
  [1779033703, 3144134277, 1013904242, 2773480762, 1359893119,
   2600822924, 528734635, 1541459225]

/-- Big-endian byte expansion of a value into a fixed byte count. -/
def beBytes : Nat → Nat → List Nat
  | 0, _ => []
  | n + 1, v => beBytes n (v / 256) ++ [v % 256]

/-- SHA-256 message padding: append 0x80, zero bytes to 56 mod 64, and the
bit length as 8 big-endian bytes. -/
def shaPad (msg : List Nat) : List Nat :=
  msg ++ 0x80 :: (List.replicate ((119 - (msg.length % 64)) % 64) 0 ++
    beBytes 8 (msg.length * 8))

/-- Group bytes into big-endian 32-bit words. -/
def bytesToWords : List Nat → List Nat
  | b0 :: b1 :: b2 :: b3 :: rest =>
      (((b0 * 256 + b1) * 256 + b2) * 256 + b3) :: bytesToWords rest
  | _ => []

/-- Split the padded message into 64-byte chunks. -/
def chunks64 : List Nat → List (List Nat)
  | [] => []
  | b :: rest => ((b :: rest).take 64) :: chunks64 ((b :: rest).drop 64)
termination_by l => l.length
decreasing_by
  simp only [List.drop, List.length_cons, List.length_drop]
  omega

/-- Extend the 16 message words of a chunk to the 64-entry schedule. -/
def shaSchedule (ws : List Nat) : List Nat :=
  (List.range 48).foldl (fun acc _ =>
    let n := acc.length
    acc ++ [w32 (acc.getD (n - 16) 0 + smallSigma0 (acc.getD (n - 15) 0) +
      acc.getD (n - 7) 0 + smallSigma1 (acc.getD (n - 2) 0))]) ws

/-- The eight SHA-256 working variables. -/
structure ShaState where
  a : Nat
  b : Nat
  c : Nat
  d : Nat
  e : Nat
  f : Nat
  g : Nat
  h : Nat

/-- One SHA-256 compression round, fed a (round constant, schedule word) pair. -/
def shaRound (s : ShaState) (kw : Nat × Nat) : ShaState :=
  let ch := (s.e &&& s.f) ^^^ ((s.e ^^^ 0xffffffff) &&& s.g)
  let maj := (s.a &&& s.b) ^^^ (s.a &&& s.c) ^^^ (s.b &&& s.c)
  let t1 := w32 (s.h + bigSigma1 s.e + ch + kw.1 + kw.2)
  let t2 := w32 (bigSigma0 s.a + maj)
  ⟨w32 (t1 + t2), s.a, s.b, s.c, w32 (s.d + t1), s.e, s.f, s.g⟩

/-- Compress one 64-byte chunk into the running hash values. -/
def shaProcessChunk (hs : List Nat) (chunk : List Nat) : List Nat :=
  let ws := shaSchedule (bytesToWords chunk)
  let s0 : ShaState :=
    ⟨hs.getD 0 0, hs.getD 1 0, hs.getD 2 0, hs.getD 3 0,
     hs.getD 4 0, hs.getD 5 0, hs.getD 6 0, hs.getD 7 0⟩
  let s := (shaK.zip ws).foldl shaRound s0
  [w32 (hs.getD 0 0 + s.a), w32 (hs.getD 1 0 + s.b), w32 (hs.getD 2 0 + s.c),
   w32 (hs.getD 3 0 + s.d), w32 (hs.getD 4 0 + s.e), w32 (hs.getD 5 0 + s.f),
   w32 (hs.getD 6 0 + s.g), w32 (hs.getD 7 0 + s.h)]

/-- SHA-256 of a byte string, as the 256-bit digest value. -/
def sha256Bytes (msg : List Nat) : Nat :=
  ((chunks64 (shaPad msg)).foldl shaProcessChunk shaH0).foldl
    (fun acc h => acc * 4294967296 + h) 0

/-- Lowercase hex digit, as hashlib hexdigest emits. -/
def hexDigitChar (n : Nat) : Char :=
  if n < 10 then Char.ofNat (48 + n) else Char.ofNat (87 + n)

/-- hashlib sha256 hexdigest: 64 lowercase hex characters, high nibble first. -/
def hexdigest256 (d : Nat) : List Char :=
  (List.range 64).map (fun i => hexDigitChar ((d >>> (4 * (63 - i))) % 16))

/-- Python int(s, 16) digit value; non-hex characters never arise here. -/
def hexVal (c : Char) : Nat :=
  if 48 ≤ c.toNat ∧ c.toNat ≤ 57 then c.toNat - 48
  else if 97 ≤ c.toNat ∧ c.toNat ≤ 102 then c.toNat - 87
  else if 65 ≤ c.toNat ∧ c.toNat ≤ 70 then c.toNat - 55
  else 0

/-- Python int(s, 16) on a hex string. -/
def parseHex (l : List Char) : Nat := l.foldl (fun acc c => acc * 16 + hexVal c) 0

/-- UTF-8 encoding of one character (str.encode). -/
def utf8Char (c : Char) : List Nat :=
  let n := c.toNat
  if n < 0x80 then [n]
  else if n < 0x800 then [0xc0 + n / 64, 0x80 + n % 64]
  else if n < 0x10000 then
    [0xe0 + n / 4096, 0x80 + (n / 64) % 64, 0x80 + n % 64]
  else
    [0xf0 + n / 262144, 0x80 + (n / 4096) % 64, 0x80 + (n / 64) % 64, 0x80 + n % 64]

/-- UTF-8 encoding of a string (str.encode). -/
def utf8Encode (l : List Char) : List Nat := (l.map utf8Char).flatten

/-! ## Address data preparation (database_client._prepare_address_data)

The leading underscore of the Python name is dropped: Lean identifiers here do
not start with an underscore. -/

/-- One entry of an addressComponents array in the Google validation payload. -/
structure AddressComponent where
  componentType : List Char
  componentNameText : List Char
  confirmationLevel : Option (List Char)
deriving DecidableEq

/-- The parts of the Google validation result the client reads. -/
structure ValidationResult where
  /-- result.englishLatinAddress.formattedAddress -/
  formattedAddress : List Char
  /-- result.englishLatinAddress.addressComponents -/
  englishComponents : List AddressComponent
  /-- result.address.addressComponents -/
  originalComponents : List AddressComponent
  /-- result.geocode.location.latitude -/
  latitude : ℚ
  /-- result.geocode.location.longitude -/
  longitude : ℚ
deriving DecidableEq

/-- A Python dict comprehension keyed by componentType keeps the last entry
for a repeated key, so a lookup returns the last component of that type. -/
def lastWithType (comps : List AddressComponent) (t : List Char) :
    Option AddressComponent :=
  (comps.filter (fun cp => cp.componentType == t)).getLast?

/-- confirmation_levels.get(t): the original component confirmation level. -/
def confirmationLevelFor (vr : ValidationResult) (t : List Char) :
    Option (List Char) :=
  match lastWithType vr.originalComponents t with
  | none => none
  | some cp => cp.confirmationLevel

/-- address_components.get(t, dict()).get("value"). -/
def componentValue (vr : ValidationResult) (t : List Char) : Option (List Char) :=
  (lastWithType vr.englishComponents t).map (fun cp => upperStr cp.componentNameText)

/-- address_components.get(t, dict()).get("confirmation_level"). -/
def componentConfirmation (vr : ValidationResult) (t : List Char) :
    Option (List Char) :=
  match lastWithType vr.englishComponents t with
  | none => none
  | some _ => confirmationLevelFor vr t

/-- The cleaned, uppercased formatted address hashed for the id:
" ".join(formatted_address.replace(chr(10), " ").split()).upper(). -/
def normalizeFormatted (f : List Char) : List Char :=
  upperStr (joinSpace (pySplit (replaceNl f)))

/-- int(hashlib.sha256(s.encode()).hexdigest()[:15], 16). -/
def addressIdOf (s : List Char) : Nat :=
  parseHex ((hexdigest256 (sha256Bytes (utf8Encode s))).take 15)

/-- A row of the addresses table, exactly the dict _prepare_address_data
builds. -/
structure AddressData where
  address_id : Nat
  formatted_address : List Char
  street : Option (List Char)
  street_confirmation : Option (List Char)
  number : Option (List Char)
  number_confirmation : Option (List Char)
  city : Option (List Char)
  city_confirmation : Option (List Char)
  postal_code : Option (List Char)
  postal_code_confirmation : Option (List Char)
  country : Option (List Char)
  country_confirmation : Option (List Char)
  google_lat : ℚ
  google_lng : ℚ
  created_at : Nat
deriving DecidableEq

def kRoute : List Char := "route".data

def kStreetNumber : List Char := "street_number".data

def kLocality : List Char := "locality".data

def kPostalCode : List Char := "postal_code".data

def kCountry : List Char := "country".data

/-- database_client._prepare_address_data: normalise and uppercase the
formatted address, derive the content-addressed id from the first 15 hex
characters of its SHA-256, and extract the component values with their
original confirmation levels. -/
def prepare_address_data (vr : ValidationResult) (now : Nat) : AddressData :=
  let formatted := normalizeFormatted vr.formattedAddress
  { address_id := addressIdOf formatted
    formatted_address := formatted
    street := componentValue vr kRoute
    street_confirmation := componentConfirmation vr kRoute
    number := componentValue vr kStreetNumber
    number_confirmation := componentConfirmation vr kStreetNumber
    city := componentValue vr kLocality
    city_confirmation := componentConfirmation vr kLocality
    postal_code := componentValue vr kPostalCode
    postal_code_confirmation := componentConfirmation vr kPostalCode
    country := componentValue vr kCountry
    country_confirmation := componentConfirmation vr kCountry
    google_lat := vr.latitude
    google_lng := vr.longitude
    created_at := now }

/-- Modelled from the spec words of the claim, for comparison with the code:
the integer value of the first 15 hexadecimal characters of the SHA-256
digest of the uppercased, whitespace-normalized formatted address. -/
def addressIdSpec (f : List Char) : Nat :=
  parseHex ((hexdigest256 (sha256Bytes (utf8Encode (upperStr (clean_address f))))).take 15)

/-! ## Database client state (src/services/database_client.py)

BigQuery tables are lists of rows; the four batch buffers are the in-memory
queues of the client.  A bulk load job either succeeds (append the whole
buffer to the table, clear the buffer) or raises; whether the backing store
accepts the write is the environment flag threaded as writeOk.  A raised
exception is an error value carrying the client state at raise time, since a
Python raise leaves the object as it was when the exception fired. -/

/-- A row of the address_inputs table. -/
structure InputRow where
  input_address : List Char
  address_id : Nat
  created_at : Nat
deriving DecidableEq

/-- A row of the verified_coordinates table (also the shape buffered for it). -/
structure VerifiedRow where
  address_id : Nat
  lat : ℚ
  lon : ℚ
  created_at : Nat
deriving DecidableEq

/-- A row of the orders table, as built by insert_task. -/
structure OrderData where
  task_id : List Char
  address_id : Nat
  local_id : List Char
  device_number : List Char
  created_at : Nat
deriving DecidableEq

/-- The four logical BigQuery tables. -/
structure DB where
  addresses : List AddressData
  address_inputs : List InputRow
  verified_coordinates : List VerifiedRow
  orders : List OrderData
deriving DecidableEq

/-- The DatabaseClient: backing tables plus the four batch buffers. -/
structure Client where
  db : DB
  address_buffer : List AddressData
  order_buffer : List OrderData
  coordinates_buffer : List VerifiedRow
  address_inputs_buffer : List InputRow
  buffer_size : Nat
deriving DecidableEq

/-- The errors a client call can raise. -/
inductive DbErr where
  /-- ValueError: validation result must be provided when the input address
  is not cached. -/
  | validationRequired
  /-- A bulk load job failed; the buffer is retained. -/
  | batchWriteFailed
deriving DecidableEq

/-- The reduction behind ORDER BY created_at DESC LIMIT 1: keep the row with
the greatest created_at seen so far. -/
def pickLatest (acc : Option VerifiedRow) (r : VerifiedRow) : Option VerifiedRow :=
  match acc with
  | none => some r
  | some b => if b.created_at < r.created_at then some r else some b

/-- get_verified_coordinates: the row for this address with the greatest
created_at (ORDER BY created_at DESC LIMIT 1), none when no row exists. -/
def get_verified_coordinates (db : DB) (address_id : Nat) : Option VerifiedRow :=
  (db.verified_coordinates.filter (fun r => r.address_id == address_id)).foldl
    pickLatest none

/-- The joined row get_address_by_input returns. -/
structure ExistingInput where
  address_id : Nat
  formatted_address : List Char
  google_lat : ℚ
  google_lng : ℚ
deriving DecidableEq

/-- get_address_by_input: exact-match lookup of the raw input string in
address_inputs joined to addresses, LIMIT 1. -/
def get_address_by_input (db : DB) (input_address : List Char) :
    Option ExistingInput :=
  match db.address_inputs.find? (fun ai => ai.input_address == input_address) with
  | none => none
  | some ai =>
      match db.addresses.find? (fun a => a.address_id == ai.address_id) with
      | none => none
      | some a => some ⟨ai.address_id, a.formatted_address, a.google_lat, a.google_lng⟩

/-- get_address: lookup by formatted address, uppercasing the argument for
the comparison (WHERE formatted_address = address.upper() LIMIT 1).  Note the
argument is only uppercased, not whitespace-normalised. -/
def get_address (db : DB) (address : List Char) : Option AddressData :=
  db.addresses.find? (fun a => a.formatted_address == upperStr address)

/-- _batch_load_addresses: one bulk write of the whole buffer, cleared only
on success; a failed job raises and retains the buffer. -/
def batch_load_addresses (writeOk : Bool) (c : Client) :
    Except (DbErr × Client) Client :=
  if c.address_buffer = [] then .ok c
  else if writeOk then
    .ok { c with
      db := { c.db with addresses := c.db.addresses ++ c.address_buffer }
      address_buffer := [] }
  else .error (.batchWriteFailed, c)

/-- _batch_load_address_inputs, same contract as the addresses load. -/
def batch_load_address_inputs (writeOk : Bool) (c : Client) :
    Except (DbErr × Client) Client :=
  if c.address_inputs_buffer = [] then .ok c
  else if writeOk then
    .ok { c with
      db := { c.db with address_inputs := c.db.address_inputs ++ c.address_inputs_buffer }
      address_inputs_buffer := [] }
  else .error (.batchWriteFailed, c)

/-- _batch_load_coordinates, same contract as the addresses load. -/
def batch_load_coordinates (writeOk : Bool) (c : Client) :
    Except (DbErr × Client) Client :=
  if c.coordinates_buffer = [] then .ok c
  else if writeOk then
    .ok { c with
      db := { c.db with verified_coordinates := c.db.verified_coordinates ++ c.coordinates_buffer }
      coordinates_buffer := [] }
  else .error (.batchWriteFailed, c)

/-- _batch_load_orders, same contract as the addresses load. -/
def batch_load_orders (writeOk : Bool) (c : Client) :
    Except (DbErr × Client) Client :=
  if c.order_buffer = [] then .ok c
  else if writeOk then
    .ok { c with
      db := { c.db with orders := c.db.orders ++ c.order_buffer }
      order_buffer := [] }
  else .error (.batchWriteFailed, c)

/-- insert_address_input: buffer the raw-input-to-id mapping and batch load
once the buffer reaches the threshold. -/
def insert_address_input (writeOk : Bool) (now : Nat) (c : Client)
    (input_address : List Char) (address_id : Nat) :
    Except (DbErr × Client) Client :=
  let c1 := { c with address_inputs_buffer :=
    c.address_inputs_buffer ++ [⟨input_address, address_id, now⟩] }
  if c1.buffer_size ≤ c1.address_inputs_buffer.length then
    batch_load_address_inputs writeOk c1
  else .ok c1

/-- insert_address: buffer the prepared address row, batch load at the
threshold, and return the id (computable before persistence). -/
def insert_address (writeOk : Bool) (now : Nat) (c : Client)
    (vr : ValidationResult) : Except (DbErr × Client) (Client × Nat) :=
  let ad := prepare_address_data vr now
  let c1 := { c with address_buffer := c.address_buffer ++ [ad] }
  if c1.buffer_size ≤ c1.address_buffer.length then
    match batch_load_addresses writeOk c1 with
    | .error e => .error e
    | .ok c2 => .ok (c2, ad.address_id)
  else .ok (c1, ad.address_id)

/-- The epsilon of the no-op coordinate comparison: 1e-7 degrees. -/
def epsCoord : ℚ := 1 / 10000000

/-- The buffer append at the end of insert_verified_coordinates. -/
def appendCoordinate (writeOk : Bool) (now : Nat) (c : Client)
    (address_id : Nat) (lat lng : ℚ) : Except (DbErr × Client) (Client × Bool) :=
  let c1 := { c with coordinates_buffer :=
    c.coordinates_buffer ++ [⟨address_id, lat, lng, now⟩] }
  if c1.buffer_size ≤ c1.coordinates_buffer.length then
    match batch_load_coordinates writeOk c1 with
    | .error e => .error e
    | .ok c2 => .ok (c2, true)
  else .ok (c1, true)

/-- insert_verified_coordinates: compare against the latest persisted
verified row if one exists, else against the google coordinates of the
addresses row fetched by id; skip the append and return false when the new
coordinate is within 1e-7 on both axes of that baseline, else buffer a new
record and return true. -/
def insert_verified_coordinates (writeOk : Bool) (now : Nat) (c : Client)
    (address_id : Nat) (lat lng : ℚ) : Except (DbErr × Client) (Client × Bool) :=
  match get_verified_coordinates c.db address_id with
  | some existing =>
      if |existing.lat - lat| < epsCoord ∧ |existing.lon - lng| < epsCoord then
        .ok (c, false)
      else appendCoordinate writeOk now c address_id lat lng
  | none =>
      match c.db.addresses.find? (fun a => a.address_id == address_id) with
      | some g =>
          if |g.google_lat - lat| < epsCoord ∧ |g.google_lng - lng| < epsCoord then
            .ok (c, false)
          else appendCoordinate writeOk now c address_id lat lng
      | none => appendCoordinate writeOk now c address_id lat lng

/-- flush_buffers: force flush every nonempty buffer. -/
def flush_buffers (writeOk : Bool) (c : Client) : Except (DbErr × Client) Client :=
  match (if c.address_buffer ≠ [] then batch_load_addresses writeOk c else .ok c) with
  | .error e => .error e
  | .ok c1 =>
    match (if c1.order_buffer ≠ [] then batch_load_orders writeOk c1 else .ok c1) with
    | .error e => .error e
    | .ok c2 =>
      match (if c2.coordinates_buffer ≠ [] then batch_load_coordinates writeOk c2
          else .ok c2) with
      | .error e => .error e
      | .ok c3 =>
        if c3.address_inputs_buffer ≠ [] then batch_load_address_inputs writeOk c3
        else .ok c3

/-- The tuple process_address returns: (address_id, lat, lng, is_verified,
original_coords). -/
structure PAResult where
  address_id : Nat
  lat : ℚ
  lng : ℚ
  is_verified : Bool
  original_lat : ℚ
  original_lng : ℚ
deriving DecidableEq

/-- process_address: input-cache lookup first; on a hit, resolve from the
cached canonical row and the verified ledger with no geocoder involvement.
On a miss, a missing validation result raises ValueError; otherwise look the
formatted address up in addresses, link the input on a canonical hit, or
mint a new canonical row and link the input on a canonical miss.  (The
Python assigns _prepare_address_data to a dead local before insert_address;
the call inside insert_address is the one whose value is used.) -/
def process_address (writeOk : Bool) (now : Nat) (c : Client)
    (input_address : List Char) (validation_result : Option ValidationResult) :
    Except (DbErr × Client) (Client × PAResult) :=
  match get_address_by_input c.db input_address with
  | some ei =>
      match get_verified_coordinates c.db ei.address_id with
      | some vc =>
          .ok (c, ⟨ei.address_id, vc.lat, vc.lon, true, ei.google_lat, ei.google_lng⟩)
      | none =>
          .ok (c, ⟨ei.address_id, ei.google_lat, ei.google_lng, false,
            ei.google_lat, ei.google_lng⟩)
  | none =>
      match validation_result with
      | none => .error (.validationRequired, c)
      | some vr =>
          match get_address c.db vr.formattedAddress with
          | some ea =>
              match insert_address_input writeOk now c input_address ea.address_id with
              | .error e => .error e
              | .ok c1 =>
                  match get_verified_coordinates c1.db ea.address_id with
                  | some vc =>
                      .ok (c1, ⟨ea.address_id, vc.lat, vc.lon, true,
                        ea.google_lat, ea.google_lng⟩)
                  | none =>
                      .ok (c1, ⟨ea.address_id, ea.google_lat, ea.google_lng, false,
                        ea.google_lat, ea.google_lng⟩)
          | none =>
              match insert_address writeOk now c vr with
              | .error e => .error e
              | .ok (c1, aid) =>
                  match insert_address_input writeOk now c1 input_address aid with
                  | .error e => .error e
                  | .ok c2 =>
                      .ok (c2, ⟨aid, vr.latitude, vr.longitude, false,
                        vr.latitude, vr.longitude⟩)

/-- The row get_address_with_coordinates returns: the address joined with
the best available coordinates and their source tag. -/
structure AddressWithCoords where
  row : AddressData
  lat : ℚ
  lng : ℚ
  coordinates_source : List Char
deriving DecidableEq

def kVerified : List Char := "verified".data

def kGoogle : List Char := "google".data

/-- get_address_with_coordinates: fetch the addresses row by id, then prefer
the latest verified coordinates over the google estimate. -/
def get_address_with_coordinates (db : DB) (address_id : Nat) :
    Option AddressWithCoords :=
  match db.addresses.find? (fun a => a.address_id == address_id) with
  | none => none
  | some a =>
      match get_verified_coordinates db address_id with
      | some vc => some ⟨a, vc.lat, vc.lon, kVerified⟩
      | none => some ⟨a, a.google_lat, a.google_lng, kGoogle⟩

/-! ## The resolution part of task_input.process_single_task

Only the address-resolution portion is modelled (the Streamlit display and
the dispatch-API submission are external collaborators).  The geocoder is an
argument; the outcome records how many times it was invoked. -/

/-- The resolution outcome of one task, with the geocoder call count. -/
structure ResolveOutcome where
  address_id : Nat
  lat : ℚ
  lng : ℚ
  is_verified : Bool
  geocoderCalls : Nat
deriving DecidableEq

/-- process_single_task, resolution steps: input-cache lookup, then on a hit
read coordinates without calling the validator, else call
address_validator.validate_address once and hand the result to
process_address. -/
def process_single_task_resolve (writeOk : Bool) (now : Nat) (c : Client)
    (geocoder : List Char → ValidationResult) (raw : List Char) :
    Except (DbErr × Client) (Client × ResolveOutcome) :=
  match get_address_by_input c.db raw with
  | some ei =>
      match get_verified_coordinates c.db ei.address_id with
      | some vc => .ok (c, ⟨ei.address_id, vc.lat, vc.lon, true, 0⟩)
      | none => .ok (c, ⟨ei.address_id, ei.google_lat, ei.google_lng, false, 0⟩)
  | none =>
      match process_address writeOk now c raw (some (geocoder raw)) with
      | .error e => .error e
      | .ok (c1, r) => .ok (c1, ⟨r.address_id, r.lat, r.lng, r.is_verified, 1⟩)

/-! ## Task preparation (src/services/task_processor.py) -/

/-- A datetime.date value. -/
structure PyDate where
  year : Nat
  month : Nat
  day : Nat
deriving DecidableEq

/-- The values a task dict carries. -/
inductive PyVal where
  | vNone
  | vStr (s : List Char)
  | vNum (q : ℚ)
  | vBool (b : Bool)
  | vDate (d : PyDate)
deriving DecidableEq

/-- A Python dict, as an association list in insertion order. -/
abbrev PyDict := List (List Char × PyVal)

/-- dict.get / bracket read: the value at a key. -/
def dictGet (d : PyDict) (k : List Char) : Option PyVal :=
  (d.find? (fun p => p.1 == k)).map (fun p => p.2)

/-- dict bracket write: replace the value at an existing key, else append. -/
def dictSet (d : PyDict) (k : List Char) (v : PyVal) : PyDict :=
  if d.any (fun p => p.1 == k) then
    d.map (fun p => if p.1 == k then (p.1, v) else p)
  else d ++ [(k, v)]

/-- Decimal digits zero-padded on the left to a width. -/
def padZeros (w : Nat) (l : List Char) : List Char :=
  List.replicate (w - l.length) '0' ++ l

/-- date.strftime of the YYYYMMDD pattern. -/
def strftimeYmd (d : PyDate) : List Char :=
  padZeros 4 (Nat.toDigits 10 d.year) ++ padZeros 2 (Nat.toDigits 10 d.month) ++
    padZeros 2 (Nat.toDigits 10 d.day)

def kDate : List Char := "date".data

/-- _prepare_task_for_api, with the copy semantics explicit: the pair is
(the caller's dict after the call, the prepared payload).  task.copy() gives
the processed dict its own storage, so the date conversion and the
None-stripping comprehension never touch the caller's dict. -/
def prepare_task_for_api (task : PyDict) : PyDict × PyDict :=
  let processed := task
  let processed :=
    match dictGet processed kDate with
    | some (.vDate d) => dictSet processed kDate (.vStr (strftimeYmd d))
    | _ => processed
  let processed := processed.filter (fun p => !(p.2 == PyVal.vNone))
  (task, processed)

/-- The preparation step of send_tasks: each task is prepared on its own
copy; the caller's list and dicts are returned unchanged alongside the
payloads. -/
def send_tasks_prepared (tasks : List PyDict) : List PyDict × List PyDict :=
  (tasks, tasks.map (fun t => (prepare_task_for_api t).2))

/-! ## Concrete fixtures used by witnesses and counterexamples -/

/-- The empty database. -/
def emptyDB : DB := ⟨[], [], [], []⟩

/-- A freshly initialised client: empty tables, empty buffers, threshold
1000 as in DatabaseClient.__init__. -/
def emptyClient : Client := ⟨emptyDB, [], [], [], [], 1000⟩

/-- A stored canonical formatted address (already normalised). -/
def cexStored : List Char := "A B".data

/-- A formatted address with repeated whitespace whose collapsed form is
cexStored. -/
def cexF : List Char := "A  B".data

/-- A canonical row storing cexStored under its content hash. -/
def row0 : AddressData :=
  { address_id := addressIdOf cexStored
    formatted_address := cexStored
    street := none
    street_confirmation := none
    number := none
    number_confirmation := none
    city := none
    city_confirmation := none
    postal_code := none
    postal_code_confirmation := none
    country := none
    country_confirmation := none
    google_lat := 1
    google_lng := 2
    created_at := 0 }

/-- A database holding only row0. -/
def db1 : DB := ⟨[row0], [], [], []⟩

/-- A client over db1 with empty buffers. -/
def client1 : Client := ⟨db1, [], [], [], [], 1000⟩

/-- A geocoder validation result whose formatted address is cexF. -/
def cexVr : ValidationResult := ⟨cexF, [], [], 3, 4⟩

/-- A canonical row with a small literal id, for cache-hit fixtures. -/
def rowSimple : AddressData :=
  { address_id := 42
    formatted_address := cexStored
    street := none
    street_confirmation := none
    number := none
    number_confirmation := none
    city := none
    city_confirmation := none
    postal_code := none
    postal_code_confirmation := none
    country := none
    country_confirmation := none
    google_lat := 1
    google_lng := 2
    created_at := 0 }

/-- A client whose input cache maps a raw string to rowSimple. -/
def clientHit : Client :=
  ⟨⟨[rowSimple], [⟨"raw".data, 42, 0⟩], [], []⟩, [], [], [], [], 1000⟩

/-! ## Theorems -/

/-! ### Facts about the tokens produced by pySplit -/

theorem pySplit_nil : pySplit [] = [] := by
  rw [pySplit.eq_def]

theorem pySplit_cons (c : Char) (cs : List Char) :
    pySplit (c :: cs) =
      if isPySpace c then pySplit cs
      else ((c :: cs).takeWhile (fun x => !isPySpace x)) ::
        pySplit ((c :: cs).dropWhile (fun x => !isPySpace x)) := by
  rw [pySplit.eq_def]

theorem joinSpace_single (t : List Char) : joinSpace [t] = t := by
  simp [joinSpace, List.intercalate, List.intersperse]

theorem joinSpace_cons_cons (t u : List Char) (rest : List (List Char)) :
    joinSpace (t :: u :: rest) = t ++ ' ' :: joinSpace (u :: rest) := by
  simp [joinSpace, List.intercalate, List.intersperse]

theorem pySplit_tokens (l : List Char) :
    ∀ t ∈ pySplit l, t ≠ [] ∧ ∀ c ∈ t, isPySpace c = false := by
  induction l using pySplit.induct with
  | case1 =>
      intro t ht
      rw [pySplit_nil] at ht
      simp at ht
  | case2 c cs hsp ih =>
      intro t ht
      rw [pySplit_cons, if_pos hsp] at ht
      exact ih t ht
  | case3 c cs hsp ih =>
      intro t ht
      rw [pySplit_cons, if_neg hsp] at ht
      rcases List.mem_cons.mp ht with rfl | ht2
      · constructor
        · simp [List.takeWhile_cons, hsp]
        · intro x hx
          have hmem := List.mem_takeWhile_imp hx
          simpa using hmem
      · exact ih t ht2

theorem takeWhile_append_of_all {p : Char → Bool} (t l : List Char)
    (ht : ∀ c ∈ t, p c = true) :
    (t ++ l).takeWhile p = t ++ l.takeWhile p := by
  induction t with
  | nil => simp
  | cons c cs ih =>
      have hc : p c = true := ht c (by simp)
      simp only [List.cons_append, List.takeWhile_cons, hc, if_true]
      rw [ih (fun x hx => ht x (by simp [hx]))]

theorem dropWhile_append_of_all {p : Char → Bool} (t l : List Char)
    (ht : ∀ c ∈ t, p c = true) :
    (t ++ l).dropWhile p = l.dropWhile p := by
  induction t with
  | nil => simp
  | cons c cs ih =>
      have hc : p c = true := ht c (by simp)
      simp only [List.cons_append, List.dropWhile_cons, hc, if_true]
      exact ih (fun x hx => ht x (by simp [hx]))

theorem takeWhile_eq_self_of_all {p : Char → Bool} (t : List Char)
    (ht : ∀ c ∈ t, p c = true) : t.takeWhile p = t := by
  induction t with
  | nil => rfl
  | cons c cs ih =>
      have hc : p c = true := ht c (by simp)
      simp only [List.takeWhile_cons, hc, if_true]
      rw [ih (fun x hx => ht x (by simp [hx]))]

theorem dropWhile_eq_nil_of_all {p : Char → Bool} (t : List Char)
    (ht : ∀ c ∈ t, p c = true) : t.dropWhile p = [] := by
  induction t with
  | nil => rfl
  | cons c cs ih =>
      have hc : p c = true := ht c (by simp)
      simp only [List.dropWhile_cons, hc, if_true]
      exact ih (fun x hx => ht x (by simp [hx]))

/-- Splitting the space-joined list of nonempty whitespace-free tokens
recovers exactly the tokens. -/
theorem pySplit_joinSpace (ts : List (List Char))
    (h : ∀ t ∈ ts, t ≠ [] ∧ ∀ c ∈ t, isPySpace c = false) :
    pySplit (joinSpace ts) = ts := by
  induction ts with
  | nil => simp [joinSpace, List.intercalate, pySplit_nil]
  | cons t rest ih =>
      obtain ⟨hne, hfree⟩ := h t (by simp)
      have hfree' : ∀ c ∈ t, (fun x => !isPySpace x) c = true := by
        intro c hc; simp [hfree c hc]
      cases rest with
      | nil =>
          obtain ⟨c, cs, rfl⟩ := List.exists_cons_of_ne_nil hne
          have hc : isPySpace c = false := hfree c (by simp)
          rw [joinSpace_single]
          rw [pySplit_cons, if_neg (by simp [hc])]
          rw [takeWhile_eq_self_of_all _ hfree', dropWhile_eq_nil_of_all _ hfree']
          rw [pySplit_nil]
      | cons t2 rest2 =>
          rw [joinSpace_cons_cons]
          obtain ⟨c, cs, rfl⟩ := List.exists_cons_of_ne_nil hne
          have hc : isPySpace c = false := hfree c (by simp)
          simp only [List.cons_append]
          rw [pySplit_cons, if_neg (by simp [hc])]
          have htake : ((c :: cs) ++ ' ' :: joinSpace (t2 :: rest2)).takeWhile
              (fun x => !isPySpace x) = c :: cs := by
            rw [takeWhile_append_of_all _ _ hfree']
            simp [List.takeWhile_cons, isPySpace]
          have hdrop : ((c :: cs) ++ ' ' :: joinSpace (t2 :: rest2)).dropWhile
              (fun x => !isPySpace x) = ' ' :: joinSpace (t2 :: rest2) := by
            rw [dropWhile_append_of_all _ _ hfree']
            simp [List.dropWhile_cons, isPySpace]
          rw [List.cons_append] at htake hdrop
          rw [htake, hdrop]
          rw [pySplit_cons, if_pos (by simp [isPySpace])]
          rw [ih (fun u hu => h u (by simp [hu]))]

/-- Every character of the space-joined token list is a space or a token
character. -/
theorem mem_joinSpace (ts : List (List Char)) (c : Char) (hc : c ∈ joinSpace ts) :
    c = ' ' ∨ ∃ t ∈ ts, c ∈ t := by
  induction ts with
  | nil => simp [joinSpace, List.intercalate] at hc
  | cons t rest ih =>
      cases rest with
      | nil =>
          right
          exact ⟨t, by simp, by simpa [joinSpace_single] using hc⟩
      | cons u rest2 =>
          rw [joinSpace_cons_cons] at hc
          rcases List.mem_append.mp hc with h1 | h2
          · exact Or.inr ⟨t, by simp, h1⟩
          · rcases List.mem_cons.mp h2 with h3 | h4
            · exact Or.inl h3
            · rcases ih h4 with h5 | ⟨v, hv1, hv2⟩
              · exact Or.inl h5
              · exact Or.inr ⟨v, by simp [hv1], hv2⟩

theorem replaceNl_eq_self : ∀ (l : List Char), (∀ c ∈ l, ¬ c = '\n') →
    replaceNl l = l
  | [], _ => rfl
  | c :: cs, h => by
      have hc : ¬ c = '\n' := h c (by simp)
      have ih := replaceNl_eq_self cs (fun x hx => h x (by simp [hx]))
      simp only [replaceNl, List.map_cons] at ih ⊢
      rw [ih]
      simp [hc]

/-- Core idempotence fact for clean_address. -/
theorem clean_address_idem (l : List Char) :
    clean_address (clean_address l) = clean_address l := by
  by_cases hl : l = []
  · subst hl; rfl
  · have hcl : clean_address l = joinSpace (pySplit (replaceNl l)) := by
      rw [clean_address, if_neg hl]
    rw [hcl]
    set ts := pySplit (replaceNl l) with hts
    have htok : ∀ t ∈ ts, t ≠ [] ∧ ∀ c ∈ t, isPySpace c = false :=
      fun t ht => pySplit_tokens (replaceNl l) t ht
    by_cases hj : joinSpace ts = []
    · rw [clean_address, if_pos hj, hj]
    · rw [clean_address, if_neg hj]
      have hnl : ∀ c ∈ joinSpace ts, ¬ c = '\n' := by
        intro c hc hcn
        rcases mem_joinSpace ts c hc with hsp | ⟨t, ht, hct⟩
        · rw [hcn] at hsp; exact absurd hsp (by decide)
        · have hfree := (htok t ht).2 c hct
          rw [hcn] at hfree
          simp [isPySpace] at hfree
      rw [replaceNl_eq_self _ hnl, pySplit_joinSpace ts htok]

/-! ### The latest-verified-row reduction implements max(created_at) -/

theorem pickLatest_foldl_mem (l : List VerifiedRow) :
    ∀ acc r, l.foldl pickLatest acc = some r → some r = acc ∨ r ∈ l := by
  induction l with
  | nil =>
      intro acc r h
      exact Or.inl h.symm
  | cons x xs ih =>
      intro acc r h
      simp only [List.foldl_cons] at h
      rcases ih (pickLatest acc x) r h with h1 | h2
      · cases acc with
        | none =>
            simp only [pickLatest, Option.some.injEq] at h1
            subst h1
            exact Or.inr (by simp)
        | some b =>
            simp only [pickLatest] at h1
            by_cases hlt : b.created_at < x.created_at
            · rw [if_pos hlt] at h1
              rw [Option.some.injEq] at h1
              subst h1
              exact Or.inr (by simp)
            · rw [if_neg hlt] at h1
              exact Or.inl h1
      · exact Or.inr (by simp [h2])

theorem pickLatest_foldl_le (l : List VerifiedRow) :
    ∀ acc r, l.foldl pickLatest acc = some r →
      (∀ b, acc = some b → b.created_at ≤ r.created_at) ∧
      (∀ q ∈ l, q.created_at ≤ r.created_at) := by
  induction l with
  | nil =>
      intro acc r h
      refine ⟨fun b hb => ?_, by simp⟩
      rw [hb] at h
      cases h
      exact Nat.le_refl _
  | cons x xs ih =>
      intro acc r h
      simp only [List.foldl_cons] at h
      obtain ⟨h1, h2⟩ := ih (pickLatest acc x) r h
      have hx : x.created_at ≤ r.created_at := by
        cases acc with
        | none => exact h1 x rfl
        | some b =>
            by_cases hlt : b.created_at < x.created_at
            · exact h1 x (by simp [pickLatest, hlt])
            · have hb := h1 b (by simp [pickLatest, hlt])
              omega
      refine ⟨?_, ?_⟩
      · intro b hb
        subst hb
        by_cases hlt : b.created_at < x.created_at
        · have := h1 x (by simp [pickLatest, hlt])
          omega
        · exact h1 b (by simp [pickLatest, hlt])
      · intro q hq
        rcases List.mem_cons.mp hq with rfl | hq2
        · exact hx
        · exact h2 q hq2

theorem pickLatest_foldl_none (l : List VerifiedRow) :
    ∀ acc, l.foldl pickLatest acc = none → acc = none ∧ l = [] := by
  induction l with
  | nil => intro acc h; exact ⟨h, rfl⟩
  | cons x xs ih =>
      intro acc h
      simp only [List.foldl_cons] at h
      obtain ⟨hpick, _⟩ := ih _ h
      exfalso
      cases acc with
      | none => simp [pickLatest] at hpick
      | some b =>
          simp only [pickLatest] at hpick
          split at hpick <;> simp at hpick

/-- A returned verified row belongs to the table, is keyed by the requested
id, and achieves the maximum created_at among that id's rows. -/
theorem get_verified_coordinates_some (db : DB) (i : Nat) (r : VerifiedRow)
    (h : get_verified_coordinates db i = some r) :
    r ∈ db.verified_coordinates ∧ r.address_id = i ∧
      ∀ q ∈ db.verified_coordinates, q.address_id = i →
        q.created_at ≤ r.created_at := by
  unfold get_verified_coordinates at h
  have hmem := pickLatest_foldl_mem _ none r h
  have hle := (pickLatest_foldl_le _ none r h).2
  rcases hmem with h1 | h2
  · cases h1
  · have hf := List.mem_filter.mp h2
    refine ⟨hf.1, by simpa using hf.2, ?_⟩
    intro q hq hqi
    exact hle q (List.mem_filter.mpr ⟨hq, by simp [hqi]⟩)

/-- A none answer means no verified row exists for the id. -/
theorem get_verified_coordinates_none (db : DB) (i : Nat)
    (h : get_verified_coordinates db i = none) :
    ∀ q ∈ db.verified_coordinates, q.address_id ≠ i := by
  unfold get_verified_coordinates at h
  have hnil := (pickLatest_foldl_none _ none h).2
  intro q hq hqi
  have hmem : q ∈ (db.verified_coordinates.filter (fun r => r.address_id == i)) :=
    List.mem_filter.mpr ⟨hq, by simp [hqi]⟩
  rw [hnil] at hmem
  simp at hmem

/-! ### Hex parsing bounds -/

theorem hexVal_lt (c : Char) : hexVal c < 16 := by
  unfold hexVal
  split_ifs <;> omega

theorem parseHex_foldl_lt (l : List Char) :
    ∀ acc : Nat, l.foldl (fun a c => a * 16 + hexVal c) acc < (acc + 1) * 16 ^ l.length := by
  induction l with
  | nil => intro acc; simp only [List.foldl_nil, List.length_nil, pow_zero, mul_one]; exact Nat.lt_succ_self acc
  | cons c cs ih =>
      intro acc
      have h1 : acc * 16 + hexVal c + 1 ≤ (acc + 1) * 16 := by
        have := hexVal_lt c
        omega
      calc cs.foldl (fun a x => a * 16 + hexVal x) (acc * 16 + hexVal c)
          < (acc * 16 + hexVal c + 1) * 16 ^ cs.length := ih _
        _ ≤ ((acc + 1) * 16) * 16 ^ cs.length := Nat.mul_le_mul_right _ h1
        _ = (acc + 1) * 16 ^ (c :: cs).length := by
            simp [List.length_cons, pow_succ]
            ring

theorem parseHex_lt (l : List Char) : parseHex l < 16 ^ l.length := by
  have h := parseHex_foldl_lt l 0
  simp only [one_mul, Nat.zero_add] at h
  simpa [parseHex] using h

/-- The content-addressed id always fits in 60 bits. -/
theorem addressIdOf_lt (s : List Char) : addressIdOf s < 2 ^ 60 := by
  unfold addressIdOf
  have hlen : ((hexdigest256 (sha256Bytes (utf8Encode s))).take 15).length ≤ 15 := by
    simp [List.length_take]
  calc parseHex ((hexdigest256 (sha256Bytes (utf8Encode s))).take 15)
      < 16 ^ ((hexdigest256 (sha256Bytes (utf8Encode s))).take 15).length :=
        parseHex_lt _
    _ ≤ 16 ^ 15 := Nat.pow_le_pow_right (by norm_num) hlen
    _ = 2 ^ 60 := by norm_num

/-- The inline normalisation of _prepare_address_data agrees with uppercasing
the clean_address helper. -/
theorem normalizeFormatted_eq_spec (f : List Char) :
    normalizeFormatted f = upperStr (clean_address f) := by
  by_cases hf : f = []
  · subst hf
    rw [clean_address, if_pos rfl]
    show upperStr (joinSpace (pySplit (replaceNl []))) = upperStr []
    rw [show replaceNl [] = [] from rfl, pySplit_nil]
    rfl
  · rw [clean_address, if_neg hf]
    rfl

/-- C8: normalization is idempotent and total: for every string s,
clean_address (clean_address s) = clean_address s, and the empty string
passes through unchanged. -/
theorem c8_normalization_idempotent_total (s : List Char) :
    clean_address (clean_address s) = clean_address s ∧
    clean_address [] = ([] : List Char) :=
  ⟨clean_address_idem s, rfl⟩

/-- C3: content-addressing determinism: the address_id of the prepared
address row equals the integer value of the first 15 hex characters of the
SHA-256 digest of the uppercased whitespace-normalized formatted address, it
fits a 64-bit integer, and it depends on nothing but the formatted address,
so computing it twice for the same formatted address yields the same id. -/
theorem c3_content_addressing_determinism (vr : ValidationResult) (now : Nat) :
    (prepare_address_data vr now).address_id = addressIdSpec vr.formattedAddress ∧
    (prepare_address_data vr now).address_id < 2 ^ 64 ∧
    ∀ vr2 : ValidationResult, ∀ now2 : Nat,
      vr2.formattedAddress = vr.formattedAddress →
      (prepare_address_data vr2 now2).address_id =
        (prepare_address_data vr now).address_id := by
  have hform : ∀ v : ValidationResult, ∀ n : Nat,
      (prepare_address_data v n).address_id =
        addressIdSpec v.formattedAddress := by
    intro v n
    show addressIdOf (normalizeFormatted v.formattedAddress) = _
    rw [normalizeFormatted_eq_spec]
    rfl
  refine ⟨hform vr now, ?_, ?_⟩
  · have h := addressIdOf_lt (normalizeFormatted vr.formattedAddress)
    have : (prepare_address_data vr now).address_id =
        addressIdOf (normalizeFormatted vr.formattedAddress) := rfl
    rw [this]
    calc addressIdOf (normalizeFormatted vr.formattedAddress) < 2 ^ 60 := h
      _ ≤ 2 ^ 64 := by norm_num
  · intro vr2 now2 heq
    rw [hform vr2 now2, hform vr now, heq]

/-- Witness for C3: the determinism conjunct applied to two concrete
validation results sharing a formatted address. -/
theorem c3_content_addressing_determinism_witness :
    (prepare_address_data ⟨"X".data, [], [], 5, 6⟩ 11).address_id =
      (prepare_address_data ⟨"X".data, [], [], 7, 8⟩ 3).address_id :=
  (c3_content_addressing_determinism ⟨"X".data, [], [], 7, 8⟩ 3).2.2
    ⟨"X".data, [], [], 5, 6⟩ 11 rfl

/-! ### Batch-load behaviour -/

theorem batch_load_addresses_true (c : Client) :
    batch_load_addresses true c = .ok
      { c with
        db := { c.db with addresses := c.db.addresses ++ c.address_buffer }
        address_buffer := [] } := by
  obtain ⟨⟨ta, ti, tv, tod⟩, ab, ob, cb, ib, bs⟩ := c
  unfold batch_load_addresses
  by_cases h : ab = []
  · subst h; simp
  · simp [h]

theorem batch_load_orders_true (c : Client) :
    batch_load_orders true c = .ok
      { c with
        db := { c.db with orders := c.db.orders ++ c.order_buffer }
        order_buffer := [] } := by
  obtain ⟨⟨ta, ti, tv, tod⟩, ab, ob, cb, ib, bs⟩ := c
  unfold batch_load_orders
  by_cases h : ob = []
  · subst h; simp
  · simp [h]

theorem batch_load_coordinates_true (c : Client) :
    batch_load_coordinates true c = .ok
      { c with
        db := { c.db with verified_coordinates := c.db.verified_coordinates ++ c.coordinates_buffer }
        coordinates_buffer := [] } := by
  obtain ⟨⟨ta, ti, tv, tod⟩, ab, ob, cb, ib, bs⟩ := c
  unfold batch_load_coordinates
  by_cases h : cb = []
  · subst h; simp
  · simp [h]

theorem batch_load_address_inputs_true (c : Client) :
    batch_load_address_inputs true c = .ok
      { c with
        db := { c.db with address_inputs := c.db.address_inputs ++ c.address_inputs_buffer }
        address_inputs_buffer := [] } := by
  obtain ⟨⟨ta, ti, tv, tod⟩, ab, ob, cb, ib, bs⟩ := c
  unfold batch_load_address_inputs
  by_cases h : ib = []
  · subst h; simp
  · simp [h]

theorem batch_load_addresses_false (c : Client) (h : c.address_buffer ≠ []) :
    batch_load_addresses false c = .error (.batchWriteFailed, c) := by
  unfold batch_load_addresses
  rw [if_neg h]
  rfl

/-- A successful insert_address_input only grows the inputs buffer or table;
the other tables are untouched. -/
theorem insert_address_input_true_ok (now : Nat) (c : Client) (k : List Char)
    (i : Nat) :
    ∃ c', insert_address_input true now c k i = .ok c' ∧
      c'.db.verified_coordinates = c.db.verified_coordinates ∧
      c'.db.addresses = c.db.addresses := by
  simp only [insert_address_input]
  split
  · rw [batch_load_address_inputs_true]
    exact ⟨_, rfl, rfl, rfl⟩
  · exact ⟨_, rfl, rfl, rfl⟩

/-- A successful insert_address returns the content-addressed id computed
before persistence; the verified table is untouched. -/
theorem insert_address_true_ok (now : Nat) (c : Client) (vr : ValidationResult) :
    ∃ c', insert_address true now c vr = .ok (c', (prepare_address_data vr now).address_id) ∧
      c'.db.verified_coordinates = c.db.verified_coordinates := by
  simp only [insert_address]
  split
  · rw [batch_load_addresses_true]
    exact ⟨_, rfl, rfl⟩
  · exact ⟨_, rfl, rfl⟩

/-- C9: with neither a verified baseline nor an addresses row for the id,
insert_verified_coordinates skips the epsilon comparison, buffers the new
record and returns true, for every coordinate pair. -/
theorem c9_no_baseline_append (c : Client) (now : Nat) (writeOk : Bool)
    (i : Nat) (lat lng : ℚ)
    (hv : get_verified_coordinates c.db i = none)
    (ha : c.db.addresses.find? (fun a => a.address_id == i) = none)
    (hbuf : c.coordinates_buffer.length + 1 < c.buffer_size) :
    insert_verified_coordinates writeOk now c i lat lng =
      .ok ({ c with coordinates_buffer :=
        c.coordinates_buffer ++ [⟨i, lat, lng, now⟩] }, true) := by
  unfold insert_verified_coordinates
  rw [hv, ha]
  unfold appendCoordinate
  rw [if_neg (by simp only [List.length_append, List.length_cons, List.length_nil]; omega)]

/-- Witness for C9 at the freshly initialised client. -/
theorem c9_no_baseline_append_witness :
    insert_verified_coordinates false 0 emptyClient 1 1 2 =
      .ok ({ emptyClient with coordinates_buffer := [⟨1, 1, 2, 0⟩] }, true) :=
  c9_no_baseline_append emptyClient 0 false 1 1 2 rfl rfl (by decide)

/-- C5: process_address raises exactly when the raw address misses the
input cache and no validation result is supplied; the ValueError carries the
client unchanged, so no canonical row, input link or buffer entry is
created.  On every other input (writes succeeding) the call returns ok. -/
theorem c5_resolution_failure_contract (c : Client) (now : Nat)
    (raw : List Char) (v : Option ValidationResult) :
    (get_address_by_input c.db raw = none ∧ v = none →
      ∀ writeOk, process_address writeOk now c raw v =
        .error (.validationRequired, c)) ∧
    ((get_address_by_input c.db raw = none ∧ v = none → False) →
      ∃ out, process_address true now c raw v = .ok out) := by
  constructor
  · rintro ⟨h1, rfl⟩ writeOk
    simp only [process_address, h1]
  · intro hne
    simp only [process_address]
    cases hin : get_address_by_input c.db raw with
    | some ei =>
        simp only []
        cases hv2 : get_verified_coordinates c.db ei.address_id <;>
          simp only [] <;> exact ⟨_, rfl⟩
    | none =>
        cases v with
        | none => exact absurd ⟨hin, rfl⟩ hne
        | some vr =>
            simp only []
            cases hga : get_address c.db vr.formattedAddress with
            | some ea =>
                obtain ⟨c1, hc1, -, -⟩ := insert_address_input_true_ok now c raw ea.address_id
                simp only [hc1]
                cases hv2 : get_verified_coordinates c1.db ea.address_id <;>
                  simp only [] <;> exact ⟨_, rfl⟩
            | none =>
                obtain ⟨c1, hc1, -⟩ := insert_address_true_ok now c vr
                simp only [hc1]
                obtain ⟨c2, hc2, -, -⟩ := insert_address_input_true_ok now c1 raw
                  (prepare_address_data vr now).address_id
                simp only [hc2]
                exact ⟨_, rfl⟩

/-- Witness for C5 at concrete inputs: the raise direction at the fresh
client with no validation result, after discharging both hypotheses. -/
theorem c5_resolution_failure_contract_witness :
    process_address false 0 emptyClient ("x".data) none =
      .error (.validationRequired, emptyClient) :=
  (c5_resolution_failure_contract emptyClient 0 ("x".data) none).1 ⟨rfl, rfl⟩ false

/-- C6: on an input-cache hit the resolution output is one fixed tuple,
identical for every supplied validation result including none, the client
state is unchanged, and the resolution path of process_single_task performs
zero geocoder calls. -/
theorem c6_cache_hit_geocoder_independence (c : Client) (writeOk : Bool)
    (now : Nat) (raw : List Char) (geocoder : List Char → ValidationResult)
    (ei : ExistingInput) (hei : get_address_by_input c.db raw = some ei) :
    ∃ r : PAResult,
      (∀ v : Option ValidationResult,
        process_address writeOk now c raw v = .ok (c, r)) ∧
      process_single_task_resolve writeOk now c geocoder raw =
        .ok (c, ⟨r.address_id, r.lat, r.lng, r.is_verified, 0⟩) := by
  cases hv : get_verified_coordinates c.db ei.address_id with
  | some vc =>
      refine ⟨⟨ei.address_id, vc.lat, vc.lon, true, ei.google_lat, ei.google_lng⟩, ?_, ?_⟩
      · intro v
        simp only [process_address, hei, hv]
      · simp only [process_single_task_resolve, hei, hv]
  | none =>
      refine ⟨⟨ei.address_id, ei.google_lat, ei.google_lng, false,
        ei.google_lat, ei.google_lng⟩, ?_, ?_⟩
      · intro v
        simp only [process_address, hei, hv]
      · simp only [process_single_task_resolve, hei, hv]

/-- Witness for C6: a client whose input cache maps "raw" to row0. -/
theorem c6_cache_hit_geocoder_independence_witness :
    ∃ r : PAResult,
      (∀ v : Option ValidationResult,
        process_address true 0 clientHit ("raw".data) v = .ok (clientHit, r)) ∧
      process_single_task_resolve true 0 clientHit (fun _ => cexVr) ("raw".data) =
        .ok (clientHit, ⟨r.address_id, r.lat, r.lng, r.is_verified, 0⟩) :=
  c6_cache_hit_geocoder_independence clientHit true 0 ("raw".data) (fun _ => cexVr)
    ⟨42, cexStored, 1, 2⟩ (by decide)

theorem flush_step_addresses (c : Client) :
    (if c.address_buffer ≠ [] then batch_load_addresses true c else .ok c) =
      .ok { c with
        db := { c.db with addresses := c.db.addresses ++ c.address_buffer }
        address_buffer := [] } := by
  split
  · exact batch_load_addresses_true c
  · rename_i h
    obtain ⟨⟨ta, ti, tv, tod⟩, ab, ob, cb, ib, bs⟩ := c
    simp_all

theorem flush_step_orders (c : Client) :
    (if c.order_buffer ≠ [] then batch_load_orders true c else .ok c) =
      .ok { c with
        db := { c.db with orders := c.db.orders ++ c.order_buffer }
        order_buffer := [] } := by
  split
  · exact batch_load_orders_true c
  · rename_i h
    obtain ⟨⟨ta, ti, tv, tod⟩, ab, ob, cb, ib, bs⟩ := c
    simp_all

theorem flush_step_coordinates (c : Client) :
    (if c.coordinates_buffer ≠ [] then batch_load_coordinates true c else .ok c) =
      .ok { c with
        db := { c.db with verified_coordinates := c.db.verified_coordinates ++ c.coordinates_buffer }
        coordinates_buffer := [] } := by
  split
  · exact batch_load_coordinates_true c
  · rename_i h
    obtain ⟨⟨ta, ti, tv, tod⟩, ab, ob, cb, ib, bs⟩ := c
    simp_all

theorem flush_step_address_inputs (c : Client) :
    (if c.address_inputs_buffer ≠ [] then batch_load_address_inputs true c else .ok c) =
      .ok { c with
        db := { c.db with address_inputs := c.db.address_inputs ++ c.address_inputs_buffer }
        address_inputs_buffer := [] } := by
  split
  · exact batch_load_address_inputs_true c
  · rename_i h
    obtain ⟨⟨ta, ti, tv, tod⟩, ab, ob, cb, ib, bs⟩ := c
    simp_all

/-- C4: buffer flush atomicity: a bulk load of the addresses queue writes
the whole queue in one append and clears it exactly when the write succeeds;
a failed write surfaces the error with every queued record retained; and
flush_buffers moves every queue's full contents into its table on success,
while a failure on a nonempty addresses queue surfaces the error with the
client unchanged, never partially cleared. -/
theorem c4_buffer_flush_atomicity (c : Client) :
    (batch_load_addresses true c = .ok
      { c with
        db := { c.db with addresses := c.db.addresses ++ c.address_buffer }
        address_buffer := [] }) ∧
    (c.address_buffer ≠ [] →
      batch_load_addresses false c = .error (.batchWriteFailed, c)) ∧
    (flush_buffers true c = .ok
      { c with
        db := ⟨c.db.addresses ++ c.address_buffer,
               c.db.address_inputs ++ c.address_inputs_buffer,
               c.db.verified_coordinates ++ c.coordinates_buffer,
               c.db.orders ++ c.order_buffer⟩
        address_buffer := []
        order_buffer := []
        coordinates_buffer := []
        address_inputs_buffer := [] }) ∧
    (c.address_buffer ≠ [] →
      flush_buffers false c = .error (.batchWriteFailed, c)) := by
  refine ⟨batch_load_addresses_true c, batch_load_addresses_false c, ?_, ?_⟩
  · obtain ⟨⟨ta, ti, tv, tod⟩, ab, ob, cb, ib, bs⟩ := c
    simp only [flush_buffers]
    by_cases hab : ab = [] <;> by_cases hob : ob = [] <;>
      by_cases hcb : cb = [] <;> by_cases hib : ib = [] <;>
      simp_all [batch_load_addresses, batch_load_orders, batch_load_coordinates,
        batch_load_address_inputs]
  · intro h
    simp only [flush_buffers]
    rw [if_pos h, batch_load_addresses_false c h]

/-- Witness for C4: a failed flush of one queued record surfaces the error
and retains the record. -/
theorem c4_buffer_flush_atomicity_witness :
    flush_buffers false { emptyClient with address_buffer := [rowSimple] } =
      .error (.batchWriteFailed, { emptyClient with address_buffer := [rowSimple] }) :=
  (c4_buffer_flush_atomicity { emptyClient with address_buffer := [rowSimple] }).2.2.2
    (by decide)

theorem get_verified_coordinates_congr (db db' : DB) (i : Nat)
    (h : db.verified_coordinates = db'.verified_coordinates) :
    get_verified_coordinates db i = get_verified_coordinates db' i := by
  unfold get_verified_coordinates
  rw [h]

/-- C2: coordinate resolution precedence.  The verified lookup returns the
table row of maximum created_at for the id (or none exactly when no row
exists); on the process_address cache-hit and canonical-hit paths the call
returns that row's coordinates with is_verified true when it exists and the
google fallback with is_verified false otherwise; and
get_address_with_coordinates prefers the verified row, tagging the source
verified, falling back to google coordinates tagged google. -/
theorem c2_resolution_precedence (writeOk : Bool) (now : Nat) (c : Client)
    (raw : List Char) (i : Nat) :
    ((∀ r, get_verified_coordinates c.db i = some r →
        r ∈ c.db.verified_coordinates ∧ r.address_id = i ∧
        ∀ q ∈ c.db.verified_coordinates, q.address_id = i →
          q.created_at ≤ r.created_at) ∧
     (get_verified_coordinates c.db i = none →
        ∀ q ∈ c.db.verified_coordinates, q.address_id ≠ i)) ∧
    (∀ ei, get_address_by_input c.db raw = some ei →
      (∀ vc, get_verified_coordinates c.db ei.address_id = some vc →
        ∀ v, process_address writeOk now c raw v =
          .ok (c, ⟨ei.address_id, vc.lat, vc.lon, true,
            ei.google_lat, ei.google_lng⟩)) ∧
      (get_verified_coordinates c.db ei.address_id = none →
        ∀ v, process_address writeOk now c raw v =
          .ok (c, ⟨ei.address_id, ei.google_lat, ei.google_lng, false,
            ei.google_lat, ei.google_lng⟩))) ∧
    (get_address_by_input c.db raw = none →
      ∀ vr ea, get_address c.db vr.formattedAddress = some ea →
      (∀ vc, get_verified_coordinates c.db ea.address_id = some vc →
        ∃ c1, process_address true now c raw (some vr) =
          .ok (c1, ⟨ea.address_id, vc.lat, vc.lon, true,
            ea.google_lat, ea.google_lng⟩)) ∧
      (get_verified_coordinates c.db ea.address_id = none →
        ∃ c1, process_address true now c raw (some vr) =
          .ok (c1, ⟨ea.address_id, ea.google_lat, ea.google_lng, false,
            ea.google_lat, ea.google_lng⟩))) ∧
    (∀ a, c.db.addresses.find? (fun x => x.address_id == i) = some a →
      (∀ vc, get_verified_coordinates c.db i = some vc →
        get_address_with_coordinates c.db i = some ⟨a, vc.lat, vc.lon, kVerified⟩) ∧
      (get_verified_coordinates c.db i = none →
        get_address_with_coordinates c.db i =
          some ⟨a, a.google_lat, a.google_lng, kGoogle⟩)) := by
  refine ⟨⟨fun r h => get_verified_coordinates_some c.db i r h,
           fun h => get_verified_coordinates_none c.db i h⟩, ?_, ?_, ?_⟩
  · intro ei hei
    constructor
    · intro vc hvc v
      simp only [process_address, hei, hvc]
    · intro hvc v
      simp only [process_address, hei, hvc]
  · intro hin vr ea hga
    constructor
    · intro vc hvc
      obtain ⟨c1, hc1, hpres, -⟩ := insert_address_input_true_ok now c raw ea.address_id
      have hsame : get_verified_coordinates c1.db ea.address_id =
          get_verified_coordinates c.db ea.address_id :=
        get_verified_coordinates_congr _ _ _ hpres
      refine ⟨c1, ?_⟩
      simp only [process_address, hin, hga, hc1, hsame, hvc]
    · intro hvc
      obtain ⟨c1, hc1, hpres, -⟩ := insert_address_input_true_ok now c raw ea.address_id
      have hsame : get_verified_coordinates c1.db ea.address_id =
          get_verified_coordinates c.db ea.address_id :=
        get_verified_coordinates_congr _ _ _ hpres
      refine ⟨c1, ?_⟩
      simp only [process_address, hin, hga, hc1, hsame, hvc]
  · intro a ha
    constructor
    · intro vc hvc
      simp only [get_address_with_coordinates, ha, hvc]
    · intro hvc
      simp only [get_address_with_coordinates, ha, hvc]

/-- Witness for C2: a cache-hit resolution on a client whose ledger holds a
verified row overriding the google estimate. -/
theorem c2_resolution_precedence_witness :
    process_address true 0
      ⟨⟨[rowSimple], [⟨"raw".data, 42, 0⟩], [⟨42, 5, 6, 3⟩], []⟩, [], [], [], [], 1000⟩
      ("raw".data) none =
    .ok (⟨⟨[rowSimple], [⟨"raw".data, 42, 0⟩], [⟨42, 5, 6, 3⟩], []⟩, [], [], [], [], 1000⟩,
      ⟨42, 5, 6, true, 1, 2⟩) :=
  ((c2_resolution_precedence true 0
      ⟨⟨[rowSimple], [⟨"raw".data, 42, 0⟩], [⟨42, 5, 6, 3⟩], []⟩, [], [], [], [], 1000⟩
      ("raw".data) 42).2.1 ⟨42, cexStored, 1, 2⟩ (by decide)).1
    ⟨42, 5, 6, 3⟩ (by decide) none

/-- After replacing the value at every occurrence of a key and stripping
None values, the key reads back the new (non-None) value. -/
theorem find_map_filter (dict : PyDict) (k : List Char) (v : PyVal)
    (hk : dict.any (fun p => p.1 == k) = true) (hv : (v == PyVal.vNone) = false) :
    dictGet ((dict.map (fun p => if p.1 == k then (p.1, v) else p)).filter
      (fun p => !(p.2 == PyVal.vNone))) k = some v := by
  induction dict with
  | nil => simp at hk
  | cons p ps ih =>
      cases hp : (p.1 == k) with
      | true =>
          simp only [List.map_cons, hp, if_true, List.filter_cons, hv, Bool.not_false]
          unfold dictGet
          simp only [List.find?_cons]
          rw [hp]
          rfl
      | false =>
          have hk2 : ps.any (fun q => q.1 == k) = true := by
            rw [List.any_cons, hp, Bool.false_or] at hk
            exact hk
          simp only [List.map_cons, hp, Bool.false_eq_true, if_false, List.filter_cons]
          cases hnone : (p.2 == PyVal.vNone) with
          | true =>
              rw [if_neg (show ¬((!true) = true) by decide)]
              exact ih hk2
          | false =>
              rw [if_pos (show (!false) = true by decide)]
              have hih := ih hk2
              unfold dictGet at hih ⊢
              simp only [List.find?_cons]
              rw [hp]
              exact hih

/-- C10: task preparation is side-effect-free on its input: the caller's
dict (and send_tasks's caller list) come back unchanged, the prepared
payload maps no key to None, and a datetime.date value under the date key is
serialized to its YYYYMMDD string. -/
theorem c10_task_preparation_frame (task : PyDict) (tasks : List PyDict) :
    (prepare_task_for_api task).1 = task ∧
    (send_tasks_prepared tasks).1 = tasks ∧
    (∀ p ∈ (prepare_task_for_api task).2, p.2 ≠ PyVal.vNone) ∧
    (∀ d : PyDate, dictGet task kDate = some (.vDate d) →
      dictGet (prepare_task_for_api task).2 kDate =
        some (.vStr (strftimeYmd d))) := by
  refine ⟨rfl, rfl, ?_, ?_⟩
  · intro p hp
    simp only [prepare_task_for_api] at hp
    have hmem := List.mem_filter.mp hp
    simpa using hmem.2
  · intro d hd
    have hfind : ∃ q, task.find? (fun p => p.1 == kDate) = some q := by
      unfold dictGet at hd
      cases hq : task.find? (fun p => p.1 == kDate) with
      | none => rw [hq] at hd; simp at hd
      | some q => exact ⟨q, rfl⟩
    obtain ⟨q, hq⟩ := hfind
    have hk : task.any (fun p => p.1 == kDate) = true := by
      have hmem := List.mem_of_find?_eq_some hq
      have hsat := List.find?_some hq
      exact List.any_eq_true.mpr ⟨q, hmem, hsat⟩
    simp only [prepare_task_for_api, hd]
    unfold dictSet
    rw [if_pos hk]
    exact find_map_filter task kDate _ hk (by simp)

/-- Witness for C10: a concrete task whose date value is a date object. -/
theorem c10_task_preparation_frame_witness :
    dictGet (prepare_task_for_api [(kDate, PyVal.vDate ⟨2024, 1, 2⟩)]).2 kDate =
      some (PyVal.vStr (strftimeYmd ⟨2024, 1, 2⟩)) :=
  (c10_task_preparation_frame [(kDate, PyVal.vDate ⟨2024, 1, 2⟩)] []).2.2.2
    ⟨2024, 1, 2⟩ (by decide)

/-- Counterexample to C1 as stated: the dedup comparison reads the persisted
verified_coordinates table while the append goes to the in-memory buffer, so
two successive calls with the identical coordinate (no flush between) both
return true and both append; after a flush the ledger holds two rows for the
address, not one. -/
theorem c1_counterexample :
    insert_verified_coordinates true 0 emptyClient 7 1 2 =
      .ok ({ emptyClient with coordinates_buffer := [⟨7, 1, 2, 0⟩] }, true) ∧
    insert_verified_coordinates true 1
        { emptyClient with coordinates_buffer := [⟨7, 1, 2, 0⟩] } 7 1 2 =
      .ok ({ emptyClient with
        coordinates_buffer := [⟨7, 1, 2, 0⟩, ⟨7, 1, 2, 1⟩] }, true) ∧
    flush_buffers true
        { emptyClient with coordinates_buffer := [⟨7, 1, 2, 0⟩, ⟨7, 1, 2, 1⟩] } =
      .ok { emptyClient with
        db := { emptyDB with verified_coordinates := [⟨7, 1, 2, 0⟩, ⟨7, 1, 2, 1⟩] } } ∧
    ([⟨7, 1, 2, 0⟩, ⟨7, 1, 2, 1⟩] : List VerifiedRow).length = 2 :=
  ⟨rfl, rfl, rfl, rfl⟩

/-- C1 amended: the comparison baseline of insert_verified_coordinates is
the persisted current verified row (else the persisted google estimate), not
the pending buffer.  Against a persisted current verified value: a call
within 1e-7 on both axes appends nothing and returns false; a call more than
1e-7 away on either axis appends exactly one record and returns true.  Two
successive calls with the same coordinate append exactly one ledger row
provided the first record is flushed to the table before the second call;
the second call then returns false. -/
theorem c1_write_suppression_amended :
    (∀ (c : Client) (now i : Nat) (lat lng : ℚ) (v : VerifiedRow),
      get_verified_coordinates c.db i = some v →
      |v.lat - lat| < epsCoord → |v.lon - lng| < epsCoord →
      insert_verified_coordinates true now c i lat lng = .ok (c, false)) ∧
    (∀ (c : Client) (now i : Nat) (lat lng : ℚ) (v : VerifiedRow),
      get_verified_coordinates c.db i = some v →
      (epsCoord < |v.lat - lat| ∨ epsCoord < |v.lon - lng|) →
      c.coordinates_buffer.length + 1 < c.buffer_size →
      insert_verified_coordinates true now c i lat lng =
        .ok ({ c with coordinates_buffer :=
          c.coordinates_buffer ++ [⟨i, lat, lng, now⟩] }, true)) ∧
    (∀ (c : Client) (now1 now2 i : Nat) (lat lng : ℚ),
      get_verified_coordinates c.db i = none →
      c.db.addresses.find? (fun a => a.address_id == i) = none →
      c.address_buffer = [] → c.order_buffer = [] →
      c.coordinates_buffer = [] → c.address_inputs_buffer = [] →
      2 ≤ c.buffer_size →
      ∃ c2 : Client,
        insert_verified_coordinates true now1 c i lat lng =
          .ok ({ c with coordinates_buffer := [⟨i, lat, lng, now1⟩] }, true) ∧
        flush_buffers true { c with coordinates_buffer := [⟨i, lat, lng, now1⟩] } =
          .ok c2 ∧
        c2.db.verified_coordinates =
          c.db.verified_coordinates ++ [⟨i, lat, lng, now1⟩] ∧
        c2.coordinates_buffer = [] ∧
        insert_verified_coordinates true now2 c2 i lat lng = .ok (c2, false)) := by
  refine ⟨?_, ?_, ?_⟩
  · intro c now i lat lng v hv h1 h2
    simp only [insert_verified_coordinates, hv]
    rw [if_pos ⟨h1, h2⟩]
  · intro c now i lat lng v hv hfar hbuf
    have hnear : ¬(|v.lat - lat| < epsCoord ∧ |v.lon - lng| < epsCoord) := by
      rintro ⟨h1, h2⟩
      rcases hfar with h | h
      · exact absurd h1 (not_lt.mpr (le_of_lt h))
      · exact absurd h2 (not_lt.mpr (le_of_lt h))
    simp only [insert_verified_coordinates, hv]
    rw [if_neg hnear]
    unfold appendCoordinate
    rw [if_neg (by simp only [List.length_append, List.length_cons,
      List.length_nil]; omega)]
  · intro c now1 now2 i lat lng hv ha hab hob hcb hib hsize
    have hfilter : c.db.verified_coordinates.filter (fun r => r.address_id == i) = [] := by
      have := pickLatest_foldl_none
        (c.db.verified_coordinates.filter (fun r => r.address_id == i)) none
      exact (this (by unfold get_verified_coordinates at hv; exact hv)).2
    obtain ⟨⟨ta, ti, tv, tod⟩, ab, ob, cb, ib, bs⟩ := c
    simp only at hab hob hcb hib hfilter ha hv hsize ⊢
    subst hab hob hcb hib
    refine ⟨⟨⟨ta, ti, tv ++ [⟨i, lat, lng, now1⟩], tod⟩, [], [], [], [], bs⟩, ?_, ?_, rfl, rfl, ?_⟩
    · simp only [insert_verified_coordinates, hv, ha]
      unfold appendCoordinate
      rw [if_neg (by simp only [List.nil_append, List.length_cons,
        List.length_nil]; omega)]
      rfl
    · simp only [flush_buffers, ne_eq, not_true_eq_false, if_false,
        reduceCtorEq]
      rw [if_pos (by simp)]
      rw [batch_load_coordinates_true]
      simp
    · have hget : get_verified_coordinates
          (⟨ta, ti, tv ++ [⟨i, lat, lng, now1⟩], tod⟩ : DB) i =
          some ⟨i, lat, lng, now1⟩ := by
        unfold get_verified_coordinates
        simp only [List.filter_append, hfilter, List.nil_append]
        rw [List.filter_cons]
        rw [if_pos (by simp)]
        rfl
      have hz1 : |lat - lat| < epsCoord := by
        rw [sub_self, abs_zero]
        norm_num [epsCoord]
      have hz2 : |lng - lng| < epsCoord := by
        rw [sub_self, abs_zero]
        norm_num [epsCoord]
      simp only [insert_verified_coordinates, hget]
      rw [if_pos ⟨hz1, hz2⟩]

/-- Witness for the amended C1 at the fresh client: append, flush, then the
identical second call is suppressed. -/
theorem c1_write_suppression_amended_witness :
    ∃ c2 : Client,
      insert_verified_coordinates true 0 emptyClient 7 1 2 =
        .ok ({ emptyClient with coordinates_buffer := [⟨7, 1, 2, 0⟩] }, true) ∧
      flush_buffers true { emptyClient with coordinates_buffer := [⟨7, 1, 2, 0⟩] } =
        .ok c2 ∧
      c2.db.verified_coordinates = emptyClient.db.verified_coordinates ++ [⟨7, 1, 2, 0⟩] ∧
      c2.coordinates_buffer = [] ∧
      insert_verified_coordinates true 1 c2 7 1 2 = .ok (c2, false) :=
  c1_write_suppression_amended.2.2 emptyClient 0 1 7 1 2 rfl rfl rfl rfl rfl rfl
    (by decide)

/-- Evaluating the whitespace split on the double-space fixture. -/
theorem cexF_tokens : pySplit (replaceNl cexF) = [['A'], ['B']] := by
  have h1 : replaceNl cexF = 'A' :: ' ' :: ' ' :: 'B' :: [] := by decide
  rw [h1]
  have ht : ('A' :: ' ' :: ' ' :: 'B' :: []).takeWhile (fun x => !isPySpace x) =
      ['A'] := by decide
  have hd : ('A' :: ' ' :: ' ' :: 'B' :: []).dropWhile (fun x => !isPySpace x) =
      ' ' :: ' ' :: 'B' :: [] := by decide
  rw [pySplit_cons, if_neg (by decide), ht, hd]
  rw [pySplit_cons, if_pos (by decide)]
  rw [pySplit_cons, if_pos (by decide)]
  have ht2 : ('B' :: []).takeWhile (fun x => !isPySpace x) = ['B'] := by decide
  have hd2 : ('B' :: []).dropWhile (fun x => !isPySpace x) = ([] : List Char) := by
    decide
  rw [pySplit_cons, if_neg (by decide), ht2, hd2, pySplit_nil]

/-- The collapsed, uppercased form of the fixture is the stored address. -/
theorem clean_cexF : upperStr (clean_address cexF) = cexStored := by
  rw [clean_address, if_neg (by decide), cexF_tokens]
  decide

/-- The inline normalisation of _prepare_address_data on the fixture. -/
theorem norm_cexF : normalizeFormatted cexF = cexStored := by
  unfold normalizeFormatted
  rw [cexF_tokens]
  decide

/-- Counterexample to C7 as stated: db1 stores a canonical row whose
formatted_address "A B" is exactly the uppercased whitespace-collapsed form
of the fresh formatted address "A  B", yet get_address misses (it only
uppercases, never collapses whitespace), and process_address mints a
duplicate canonical row carrying the same formatted_address and the same
content-addressed id as the stored row. -/
theorem c7_counterexample :
    upperStr (clean_address cexF) = cexStored ∧
    row0 ∈ db1.addresses ∧
    row0.formatted_address = cexStored ∧
    get_address db1 cexF = none ∧
    process_address true 0 client1 ("raw".data) (some cexVr) =
      .ok ({ client1 with
          address_buffer := [prepare_address_data cexVr 0]
          address_inputs_buffer :=
            [⟨"raw".data, (prepare_address_data cexVr 0).address_id, 0⟩] },
        ⟨(prepare_address_data cexVr 0).address_id, 3, 4, false, 3, 4⟩) ∧
    (prepare_address_data cexVr 0).formatted_address = row0.formatted_address ∧
    (prepare_address_data cexVr 0).address_id = row0.address_id := by
  have h1 : get_address_by_input client1.db ("raw".data) = none := by decide
  have h2 : get_address client1.db cexVr.formattedAddress = none := by decide
  have hform : (prepare_address_data cexVr 0).formatted_address = cexStored := by
    show normalizeFormatted cexVr.formattedAddress = cexStored
    exact norm_cexF
  have hid : (prepare_address_data cexVr 0).address_id = addressIdOf cexStored :=
    congrArg addressIdOf norm_cexF
  refine ⟨clean_cexF, by simp [db1], rfl, by decide, ?_, hform, hid⟩
  simp only [process_address, h1, h2]
  simp only [insert_address]
  rw [if_neg (by simp [client1])]
  simp only [insert_address_input]
  rw [if_neg (by simp [client1])]
  rfl

/-- C7 amended: the canonical lookup after a fresh geocode matches on the
uppercased formatted address without any whitespace normalisation: a stored
row is found iff its formatted_address equals upper(f) exactly.  When the
lookup misses (in particular when f contains newlines or repeated whitespace
while the stored row holds the collapsed form), the fresh-insert path
appends a canonical row whose formatted_address is the collapsed uppercased
form and whose address_id is its content hash — duplicating any existing row
stored under that same normalised address. -/
theorem c7_canonical_lookup_amended (db : DB) (f : List Char) (c : Client)
    (vr : ValidationResult) (now : Nat) (raw : List Char) :
    ((∃ a ∈ db.addresses, a.formatted_address = upperStr f) →
      ∃ a, get_address db f = some a ∧ a.formatted_address = upperStr f) ∧
    (get_address db f = none →
      ∀ a ∈ db.addresses, a.formatted_address ≠ upperStr f) ∧
    (get_address_by_input c.db raw = none →
      get_address c.db vr.formattedAddress = none →
      c.address_buffer.length + 1 < c.buffer_size →
      c.address_inputs_buffer.length + 1 < c.buffer_size →
      process_address true now c raw (some vr) =
        .ok ({ c with
            address_buffer := c.address_buffer ++ [prepare_address_data vr now]
            address_inputs_buffer := c.address_inputs_buffer ++
              [⟨raw, (prepare_address_data vr now).address_id, now⟩] },
          ⟨(prepare_address_data vr now).address_id, vr.latitude, vr.longitude,
            false, vr.latitude, vr.longitude⟩) ∧
      (prepare_address_data vr now).formatted_address =
        normalizeFormatted vr.formattedAddress ∧
      (prepare_address_data vr now).address_id =
        addressIdOf (normalizeFormatted vr.formattedAddress)) := by
  refine ⟨?_, ?_, ?_⟩
  · rintro ⟨a, ha, hfa⟩
    cases hga : get_address db f with
    | none =>
        exfalso
        have := List.find?_eq_none.mp hga a ha
        exact this (by simp [hfa])
    | some b =>
        refine ⟨b, rfl, ?_⟩
        have := List.find?_some hga
        simpa using this
  · intro hga a ha hfa
    have := List.find?_eq_none.mp hga a ha
    exact this (by simp [hfa])
  · intro h1 h2 hb1 hb2
    refine ⟨?_, rfl, rfl⟩
    simp only [process_address, h1, h2]
    simp only [insert_address]
    rw [if_neg (by simp only [List.length_append, List.length_cons,
      List.length_nil]; omega)]
    simp only [insert_address_input]
    rw [if_neg (by simp only [List.length_append, List.length_cons,
      List.length_nil]; omega)]

/-- Witness for the amended C7: the exact-uppercase lookup finds row0 from
the lowercase spelling of the stored address. -/
theorem c7_canonical_lookup_amended_witness :
    ∃ a, get_address db1 ("a b".data) = some a ∧
      a.formatted_address = upperStr ("a b".data) :=
  (c7_canonical_lookup_amended db1 ("a b".data) client1 cexVr 0 ("raw".data)).1
    ⟨row0, by simp [db1], by decide⟩

end Agrolog
